import Mathlib

/-!
Verification development for the Streamlit AI-jobs dashboard
(`Home.py`, `pages/Geographical_overview_of_AI_Impact.py`,
`pages/2_A multidimensional comparative analysis of job roles in the field of AI.py`).

The repository keeps a per-session selection state (primary country,
secondary country, comparison mode, global-top-10 toggle) and mutates it in
response to map clicks, mode-radio changes, reset and toggle buttons.  Two
pages carry near-duplicate but subtly different click-handling chains; both
are embedded here (`homClick` from `Home.py`, `geoClick` from the
geographical page).  The multidimensional page carries the min-max
normalizer embedded as `normalized_value`.  Machine floats of the source
are modelled as exact rationals; pandas frames as lists of records.
-/

namespace AIDashboard

/-- One row of the dataset, after `load_data` adds `is_same_location`
(`Home.py` lines 40-49).  Field names follow the CSV columns. -/
structure JobRecord where
  job_title : String
  salary_usd : ℚ
  employee_residence : String
  company_location : String
  years_experience : ℚ
  remote_ratio : ℚ
  benefits_score : ℚ
deriving DecidableEq

/-- The derived per-row flag `is_same_location`
(`Home.py` line 46: `(df['employee_residence'] == df['company_location']).astype(int)`). -/
def is_same_location (r : JobRecord) : Nat :=
  if r.employee_residence = r.company_location then 1 else 0

/-- The three values of `st.session_state['compare_mode']`:
`"Standard View"`, `"Compare Employees"`, `"Compare Companies"`. -/
inductive CompareMode where
  | standard
  | compareEmployees
  | compareCompanies
deriving DecidableEq

/-- The four session-state slots initialised in `Home.py` lines 19-26 and in
the geographical page lines 19-26. -/
structure SelectionState where
  primary_country : Option String
  secondary_country : Option String
  compare_mode : CompareMode
  show_global_top10 : Bool
deriving DecidableEq

/-- Initial session state: both selections `None`, `"Standard View"`,
toggle off (`Home.py` lines 19-26). -/
def initState : SelectionState :=
  ⟨none, none, CompareMode.standard, false⟩

/-- `reset_app` (both pages, lines 29-33): every slot back to its initial
value, `show_global_top10` included. -/
def reset_app : SelectionState := initState

/- ------------------------------------------------------------------
   Dataset-derived country domains and categories
   ------------------------------------------------------------------ -/

/-- The `employee_residence` column of the dataset. -/
def empValues (d : List JobRecord) : List String :=
  d.map (fun r => r.employee_residence)

/-- The `company_location` column of the dataset. -/
def compValues (d : List JobRecord) : List String :=
  d.map (fun r => r.company_location)

/-- `emp_countries = set(df['employee_residence'].unique())`
(`Home.py` line 258). -/
def empDomain (d : List JobRecord) : Finset String :=
  (empValues d).toFinset

/-- `comp_countries = set(df['company_location'].unique())`
(`Home.py` line 259). -/
def compDomain (d : List JobRecord) : Finset String :=
  (compValues d).toFinset

/-- `all_countries = emp_countries.union(comp_countries)` (`Home.py`
line 260, geographical page line 162): the country set of the comparator
map. -/
def all_countries (d : List JobRecord) : Finset String :=
  empDomain d ∪ compDomain d

/-- Country classification (`Home.py` `get_category`, lines 264-272; the
geographical page's lambda at lines 164-166 is the same computation). -/
inductive CountryCategory where
  | employeesOnly
  | companiesOnly
  | both
deriving DecidableEq

/-- `get_category` (`Home.py` lines 264-272): membership of the country in
the two distinct-value sets decides the category.  Note that a name found
in neither column falls into the final `else` and is classified
`companiesOnly`, exactly as in the Python code. -/
def get_category (d : List JobRecord) (c : String) : CountryCategory :=
  if c ∈ empValues d ∧ c ∈ compValues d then CountryCategory.both
  else if c ∈ empValues d then CountryCategory.employeesOnly
  else CountryCategory.companiesOnly

/- ------------------------------------------------------------------
   Click transition chains of the two pages
   ------------------------------------------------------------------ -/

/-- The click-handling chain of `Home.py` (lines 297-316), branch for
branch.  `clicked` is the country name extracted from the plotly
selection.  Comparisons of `clicked` against the optional session slots
become `some clicked = slot`, matching Python's `str == Optional[str]`
(which is `False` against `None`). -/
def homClick (s : SelectionState) (clicked : String) : SelectionState :=
  if some clicked = s.primary_country then
    { s with primary_country := none
             secondary_country := none
             compare_mode := CompareMode.standard }
  else if some clicked = s.secondary_country then
    { s with secondary_country := none }
  else if s.primary_country = none then
    { s with primary_country := some clicked }
  else if s.primary_country ≠ none ∧ s.compare_mode ≠ CompareMode.standard ∧
      some clicked ≠ s.primary_country then
    { s with secondary_country := some clicked }
  else if s.compare_mode = CompareMode.standard ∧ some clicked ≠ s.primary_country then
    { s with primary_country := some clicked }
  else s

/-- The click-handling chain of the geographical page (lines 176-184):
click on the primary calls `reset_app()` (all four slots!); otherwise a
click sets the primary when there is none or the mode is `"Standard
View"`, and the secondary otherwise. -/
def geoClick (s : SelectionState) (clicked : String) : SelectionState :=
  if some clicked = s.primary_country then reset_app
  else if s.primary_country = none ∨ s.compare_mode = CompareMode.standard then
    { s with primary_country := some clicked }
  else
    { s with secondary_country := some clicked }

/- ------------------------------------------------------------------
   Mode controls
   ------------------------------------------------------------------ -/

/-- The mode options `Home.py` exposes as a user choice (lines 336-349):
the three-way radio appears only when the primary's category is `both`;
otherwise no control is shown at all (the mode is assigned). -/
def homModeOptions (d : List JobRecord) (primary : String) : List CompareMode :=
  if get_category d primary = CountryCategory.both then
    [CompareMode.standard, CompareMode.compareEmployees, CompareMode.compareCompanies]
  else []

/-- The mode options the geographical page exposes (lines 203-205): the
radio always offers all three modes, whatever the primary's category. -/
def geoModeOptions : List CompareMode :=
  [CompareMode.standard, CompareMode.compareEmployees, CompareMode.compareCompanies]

/-- The mode-control section of `Home.py` (lines 336-349), run on every
render once a primary is selected, with `m` the radio's value.  Category
`both`: a change of mode is stored and clears the secondary (lines
342-345).  Any other category: the mode is forced to the single applicable
compare-mode (`req`, lines 346-349) — `"Compare Employees"` exactly when
the category string contains `"Employees"`, i.e. for `employeesOnly`. -/
def homModeCtrl (d : List JobRecord) (s : SelectionState) (m : CompareMode) :
    SelectionState :=
  match s.primary_country with
  | none => s
  | some primary =>
      if get_category d primary = CountryCategory.both then
        if m ≠ s.compare_mode then
          { s with compare_mode := m, secondary_country := none }
        else s
      else
        { s with compare_mode :=
            if get_category d primary = CountryCategory.employeesOnly then
              CompareMode.compareEmployees
            else CompareMode.compareCompanies }

/-- `Home.py`'s render pass with the radio untouched: the radio's index is
the current mode, so only the forced-assignment branch can change state. -/
def homForce (d : List JobRecord) (s : SelectionState) : SelectionState :=
  homModeCtrl d s s.compare_mode

/-- The mode-control of the geographical page (lines 203-209): the radio is
shown whenever a primary is selected; a changed mode is stored and clears
the secondary; no category-based forcing exists on this page. -/
def geoModeCtrl (s : SelectionState) (m : CompareMode) : SelectionState :=
  match s.primary_country with
  | none => s
  | some _ =>
      if m ≠ s.compare_mode then
        { s with compare_mode := m, secondary_country := none }
      else s

/- ------------------------------------------------------------------
   Events and the per-page step functions
   ------------------------------------------------------------------ -/

/-- The discrete events of the selection state machine. -/
inductive Event where
  | entityClicked (name : String)
  | modeChanged (m : CompareMode)
  | resetRequested
  | toggleGlobalTop10
deriving DecidableEq

/-- One full interaction cycle on `Home.py`: a click runs the transition
chain and then the render pass (which applies category forcing); a mode
change runs the mode control; the reset button calls `reset_app`; the
global-countries button flips the toggle (line 227-228). -/
def homStep (d : List JobRecord) (s : SelectionState) : Event → SelectionState
  | Event.entityClicked name => homForce d (homClick s name)
  | Event.modeChanged m => homModeCtrl d s m
  | Event.resetRequested => reset_app
  | Event.toggleGlobalTop10 => { s with show_global_top10 := !s.show_global_top10 }

/-- One full interaction cycle on the geographical page. -/
def geoStep (s : SelectionState) : Event → SelectionState
  | Event.entityClicked name => geoClick s name
  | Event.modeChanged m => geoModeCtrl s m
  | Event.resetRequested => reset_app
  | Event.toggleGlobalTop10 => { s with show_global_top10 := !s.show_global_top10 }

/-- The SelectionState invariant of the specification: a secondary is set
only when a primary is set and the mode is not `"Standard View"`. -/
def selection_invariant (s : SelectionState) : Prop :=
  s.secondary_country ≠ none →
    s.primary_country ≠ none ∧ s.compare_mode ≠ CompareMode.standard

instance (s : SelectionState) : Decidable (selection_invariant s) := by
  unfold selection_invariant; infer_instance

/- ------------------------------------------------------------------
   Metric normalizer (multidimensional page, lines 96-110)
   ------------------------------------------------------------------ -/

/-- pandas `Series.min` over the aggregated column, modelled as a fold. -/
def seriesMin (l : List ℚ) : ℚ :=
  l.foldl min (l.headD 0)

/-- pandas `Series.max` over the aggregated column, modelled as a fold. -/
def seriesMax (l : List ℚ) : ℚ :=
  l.foldl max (l.headD 0)

/-- `epsilon = 0.02` (multidimensional page, line 101). -/
def epsilon : ℚ := 2 / 100

/-- The normalization of the multidimensional page (lines 96-110):
min-max scaling of the `raw_value` column, the all-equal guard assigning
`1.0` everywhere, and the final `.clip(lower=epsilon)` which is applied
unconditionally after the branch. -/
def normalized_value (l : List ℚ) : List ℚ :=
  let min_val := seriesMin l
  let max_val := seriesMax l
  let scaled :=
    if max_val - min_val = 0 then l.map (fun _ => 1)
    else l.map (fun v => (v - min_val) / (max_val - min_val))
  scaled.map (fun x => max x epsilon)

/- ------------------------------------------------------------------
   Single-view groupby / create_graphs (geographical page)
   ------------------------------------------------------------------ -/

/-- The keys of `df.groupby(loc_col)` (geographical page line 248): the
distinct values of the location column, i.e. exactly the countries drawn
on the single-view map. -/
def groupKeys (d : List JobRecord) (col : JobRecord → String) : List String :=
  (d.map col).dedup

/-- `df[df[loc_col] == selected]` (geographical page line 261). -/
def filterBy (d : List JobRecord) (col : JobRecord → String) (k : String) :
    List JobRecord :=
  d.filter (fun r => col r = k)

/-- `create_graphs` (geographical page lines 63-94), embedded as the key
set of the returned mapping — the figures themselves are rendering and out
of scope.  The function returns an empty mapping when `data.empty` (line
65) and otherwise stores exactly the keys `'top_roles'` (line 76) and
`'top_countries'` (line 93). -/
def create_graphs (data : List JobRecord) : List String :=
  if data = [] then [] else ["top_roles", "top_countries"]

/- ------------------------------------------------------------------
   Concrete example dataset used by closed theorems
   ------------------------------------------------------------------ -/

/-- A one-row example dataset: an employee residing in `"Atlantis"`
working for a company located in `"Borduria"`.  `"Atlantis"` is then an
employees-only country, `"Borduria"` a companies-only one, and
`"Ruritania"` is outside both domains. -/
def dEx : List JobRecord :=
  [⟨"Engineer", 100, "Atlantis", "Borduria", 3, 0, 1⟩]

/- ==================================================================
   Helper lemmas
   ================================================================== -/

lemma foldl_min_le_init (l : List ℚ) (a : ℚ) : l.foldl min a ≤ a := by
  induction l generalizing a with
  | nil => simp
  | cons x xs ih =>
      calc List.foldl min (min a x) xs ≤ min a x := ih _
        _ ≤ a := min_le_left _ _

lemma foldl_min_le_mem (l : List ℚ) (a : ℚ) : ∀ x ∈ l, l.foldl min a ≤ x := by
  induction l generalizing a with
  | nil => simp
  | cons y ys ih =>
      intro x hx
      rcases List.mem_cons.mp hx with h | h
      · subst h
        calc List.foldl min (min a x) ys ≤ min a x := foldl_min_le_init _ _
          _ ≤ x := min_le_right _ _
      · exact ih _ x h

lemma le_foldl_max_init (l : List ℚ) (a : ℚ) : a ≤ l.foldl max a := by
  induction l generalizing a with
  | nil => simp
  | cons x xs ih =>
      calc a ≤ max a x := le_max_left _ _
        _ ≤ List.foldl max (max a x) xs := ih _

lemma le_foldl_max_mem (l : List ℚ) (a : ℚ) : ∀ x ∈ l, x ≤ l.foldl max a := by
  induction l generalizing a with
  | nil => simp
  | cons y ys ih =>
      intro x hx
      rcases List.mem_cons.mp hx with h | h
      · subst h
        calc x ≤ max a x := le_max_right _ _
          _ ≤ List.foldl max (max a x) ys := le_foldl_max_init _ _
      · exact ih _ x h

lemma foldl_max_mem (l : List ℚ) (a : ℚ) : l.foldl max a = a ∨ l.foldl max a ∈ l := by
  induction l generalizing a with
  | nil => left; rfl
  | cons y ys ih =>
      rcases ih (max a y) with h | h
      · rcases le_total a y with hay | hya
        · right
          rw [List.foldl_cons, h, max_eq_right hay]
          exact List.mem_cons_self _ _
        · left
          rw [List.foldl_cons, h, max_eq_left hya]
      · right
        exact List.mem_cons_of_mem _ h

lemma headD_mem (l : List ℚ) (h : l ≠ []) : l.headD 0 ∈ l := by
  cases l with
  | nil => exact absurd rfl h
  | cons x xs => simp

lemma seriesMin_le (l : List ℚ) : ∀ x ∈ l, seriesMin l ≤ x :=
  foldl_min_le_mem l _

lemma le_seriesMax (l : List ℚ) : ∀ x ∈ l, x ≤ seriesMax l :=
  le_foldl_max_mem l _

lemma seriesMax_mem (l : List ℚ) (h : l ≠ []) : seriesMax l ∈ l := by
  rcases foldl_max_mem l (l.headD 0) with h1 | h1
  · rw [seriesMax, h1]
    exact headD_mem l h
  · exact h1

lemma seriesMin_le_seriesMax (l : List ℚ) : seriesMin l ≤ seriesMax l :=
  le_trans (foldl_min_le_init _ _) (le_foldl_max_init _ _)

/-- In the degenerate all-equal branch every entry becomes exactly `1`
(the later clip does not change a `1`). -/
lemma normalized_value_degenerate (l : List ℚ) (hc : seriesMax l - seriesMin l = 0) :
    normalized_value l = l.map (fun _ => 1) := by
  have h1 : max (1 : ℚ) epsilon = 1 := max_eq_left (by norm_num [epsilon])
  simp [normalized_value, hc, List.map_map, Function.comp_def, h1]

/-- In the non-degenerate branch the output is the clipped min-max scaling,
entry for entry. -/
lemma normalized_value_scaled (l : List ℚ) (hc : ¬ (seriesMax l - seriesMin l = 0)) :
    normalized_value l =
      l.map (fun v => max ((v - seriesMin l) / (seriesMax l - seriesMin l)) epsilon) := by
  simp [normalized_value, hc, List.map_map, Function.comp_def]

lemma homClick_top10 (s : SelectionState) (n : String) :
    (homClick s n).show_global_top10 = s.show_global_top10 := by
  unfold homClick
  split_ifs <;> rfl

/-- The render-pass mode control of `Home.py` with an untouched radio can
only rewrite `compare_mode`; the other three slots survive unchanged. -/
lemma homForce_fields (d : List JobRecord) (s : SelectionState) :
    (homForce d s).primary_country = s.primary_country ∧
    (homForce d s).secondary_country = s.secondary_country ∧
    (homForce d s).show_global_top10 = s.show_global_top10 := by
  obtain ⟨p, sec, m0, g⟩ := s
  cases p with
  | none => exact ⟨rfl, rfl, rfl⟩
  | some p =>
      simp only [homForce, homModeCtrl]
      split_ifs with h1 h2 h3 <;> simp_all

lemma homClick_invariant (s : SelectionState) (n : String)
    (h : selection_invariant s) : selection_invariant (homClick s n) := by
  unfold homClick
  split_ifs with h1 h2 h3 h4 h5 <;> simp_all [selection_invariant]

lemma geoClick_invariant (s : SelectionState) (n : String)
    (h : selection_invariant s) : selection_invariant (geoClick s n) := by
  unfold geoClick
  split_ifs with h1 h2
  · decide
  · intro hsec
    rcases h2 with hp | hm
    · exact absurd ((h (by simpa using hsec)).1) (by simp [hp])
    · exact absurd ((h (by simpa using hsec)).2) (by simp [hm])
  · push_neg at h2
    intro _
    simpa [selection_invariant] using h2

lemma homModeCtrl_invariant (d : List JobRecord) (s : SelectionState) (m : CompareMode)
    (h : selection_invariant s) : selection_invariant (homModeCtrl d s m) := by
  obtain ⟨p, sec, m0, g⟩ := s
  cases p with
  | none => exact h
  | some p =>
      simp only [homModeCtrl]
      split_ifs with h1 h2 h3
      · intro hsec
        exact (hsec rfl).elim
      · exact h
      · exact fun _ => ⟨by simp, by simp⟩
      · exact fun _ => ⟨by simp, by simp⟩

lemma geoModeCtrl_invariant (s : SelectionState) (m : CompareMode)
    (h : selection_invariant s) : selection_invariant (geoModeCtrl s m) := by
  obtain ⟨p, sec, m0, g⟩ := s
  cases p with
  | none => exact h
  | some p =>
      simp only [geoModeCtrl]
      split_ifs with h1
      · intro hsec
        exact (hsec rfl).elim
      · exact h

/- ==================================================================
   Claim theorems
   ================================================================== -/

/-- Claim C1 (code bug in the geographical page).  At the concrete failing
input — primary `Atlantis`, secondary `Borduria`, mode Compare Employees,
click on `Borduria` — `Home.py` clears only the secondary, as the claim
states; the geographical page's chain instead re-assigns
`secondary_country = clicked` and so leaves the secondary set, the state
wholly unchanged. -/
theorem secondary_toggle_divergence :
    homStep dEx ⟨some "Atlantis", some "Borduria", CompareMode.compareEmployees, false⟩
        (Event.entityClicked "Borduria") =
      ⟨some "Atlantis", none, CompareMode.compareEmployees, false⟩ ∧
    geoStep ⟨some "Atlantis", some "Borduria", CompareMode.compareEmployees, false⟩
        (Event.entityClicked "Borduria") =
      ⟨some "Atlantis", some "Borduria", CompareMode.compareEmployees, false⟩ := by
  decide

/-- Claim C2 (code bug in the geographical page).  On the example dataset
`Atlantis` is employees-only and `Borduria` companies-only; `Home.py`
forces the single applicable compare-mode for each and exposes no mode
choice at all (`homModeOptions = []`), while the geographical page's radio
always exposes all three modes — `Standard View` included — and performs
no forcing: after clicking `Atlantis` there its mode is still Standard. -/
theorem category_mode_forcing_divergence :
    get_category dEx "Atlantis" = CountryCategory.employeesOnly ∧
    get_category dEx "Borduria" = CountryCategory.companiesOnly ∧
    (homForce dEx ⟨some "Atlantis", none, CompareMode.standard, false⟩).compare_mode =
      CompareMode.compareEmployees ∧
    (homForce dEx ⟨some "Borduria", none, CompareMode.standard, false⟩).compare_mode =
      CompareMode.compareCompanies ∧
    homModeOptions dEx "Atlantis" = [] ∧
    homModeOptions dEx "Borduria" = [] ∧
    CompareMode.standard ∈ geoModeOptions ∧
    CompareMode.compareCompanies ∈ geoModeOptions ∧
    (geoStep initState (Event.entityClicked "Atlantis")).compare_mode =
      CompareMode.standard := by
  decide

/-- Claim C3: the invariant "secondary is non-null only if primary is
non-null and the mode is not Standard" holds in the initial state and is
preserved by every event — clicks, mode changes, reset and the top-10
toggle — on both pages' machines. -/
theorem selection_invariant_preserved :
    selection_invariant initState ∧
    ∀ (d : List JobRecord) (s : SelectionState) (e : Event),
      selection_invariant s →
      selection_invariant (homStep d s e) ∧ selection_invariant (geoStep s e) := by
  refine ⟨by decide, ?_⟩
  intro d s e h
  cases e with
  | entityClicked n =>
      exact ⟨homModeCtrl_invariant d (homClick s n) _ (homClick_invariant s n h),
             geoClick_invariant s n h⟩
  | modeChanged m =>
      exact ⟨homModeCtrl_invariant d s m h, geoModeCtrl_invariant s m h⟩
  | resetRequested =>
      have hres : selection_invariant reset_app := by decide
      exact ⟨hres, hres⟩
  | toggleGlobalTop10 =>
      constructor <;> · intro hsec; exact h hsec

/-- Witness for C3: the invariant facts at a concrete state and event. -/
theorem selection_invariant_preserved_witness :
    selection_invariant initState ∧
    selection_invariant (homStep dEx initState (Event.entityClicked "Atlantis")) :=
  ⟨selection_invariant_preserved.1,
   (selection_invariant_preserved.2 dEx initState (Event.entityClicked "Atlantis")
     (by decide)).1⟩

/-- Claim C4 (code bug in the geographical page).  On `Home.py` a click
never changes `show_global_top10` (first conjunct, every dataset, state and
name), and a click on the active primary resets exactly the three
selection slots (second conjunct).  The geographical page instead routes
that click through `reset_app()`, which also forces `show_global_top10`
back to `false` (third conjunct, starting from the toggle on). -/
theorem toggle_frame_divergence :
    (∀ (d : List JobRecord) (s : SelectionState) (n : String),
        (homStep d s (Event.entityClicked n)).show_global_top10 = s.show_global_top10) ∧
    homStep dEx ⟨some "Atlantis", none, CompareMode.standard, true⟩
        (Event.entityClicked "Atlantis") =
      ⟨none, none, CompareMode.standard, true⟩ ∧
    (geoStep ⟨some "Atlantis", none, CompareMode.standard, true⟩
        (Event.entityClicked "Atlantis")).show_global_top10 = false := by
  refine ⟨?_, by decide, by decide⟩
  intro d s n
  show (homForce d (homClick s n)).show_global_top10 = _
  rw [(homForce_fields d (homClick s n)).2.2, homClick_top10]

/-- Claim C5: from the initial state, clicking the same country twice in
succession returns both machines to the initial state, for every dataset
and every name — on `Home.py` even though the intervening render pass may
force a non-Standard mode for a single-category country. -/
theorem click_twice_idempotent (d : List JobRecord) (n : String) :
    homStep d (homStep d initState (Event.entityClicked n)) (Event.entityClicked n) =
      initState ∧
    geoStep (geoStep initState (Event.entityClicked n)) (Event.entityClicked n) =
      initState := by
  constructor
  · cases hcat : get_category d n <;>
      simp [homStep, homForce, homModeCtrl, homClick, initState, hcat]
  · simp [geoStep, geoClick, initState, reset_app]

/-- Claim C6: for every non-empty value sequence the normalizer's outputs
lie in `[epsilon, 1]` and at least one output equals `1`; in the
degenerate `max = min` case every output is exactly `1`; and `[0, 5, 10]`
normalizes to exactly `[0.02, 0.5, 1.0]`. -/
theorem normalize_range (l : List ℚ) (h : l ≠ []) :
    (∀ x ∈ normalized_value l, epsilon ≤ x ∧ x ≤ 1) ∧
    (∃ x ∈ normalized_value l, x = 1) ∧
    ((seriesMax l - seriesMin l = 0) → ∀ x ∈ normalized_value l, x = 1) ∧
    normalized_value [0, 5, 10] = [(0.02 : ℚ), 0.5, 1.0] := by
  have heps : (epsilon : ℚ) ≤ 1 := by norm_num [epsilon]
  have hmM : seriesMin l ≤ seriesMax l := seriesMin_le_seriesMax l
  have hconc : normalized_value [0, 5, 10] = [(0.02 : ℚ), 0.5, 1.0] := by
    norm_num [normalized_value, seriesMin, seriesMax, epsilon]
  by_cases hc : seriesMax l - seriesMin l = 0
  · have hall : ∀ x ∈ normalized_value l, x = 1 := by
      rw [normalized_value_degenerate l hc]
      intro x hx
      simp only [List.mem_map] at hx
      obtain ⟨v, hv, hveq⟩ := hx
      exact hveq.symm
    refine ⟨fun x hx => ?_, ?_, fun _ => hall, hconc⟩
    · rw [hall x hx]
      exact ⟨heps, le_refl 1⟩
    · have hne : normalized_value l ≠ [] := by
        rw [normalized_value_degenerate l hc]
        simpa using h
      obtain ⟨x, hx⟩ := List.exists_mem_of_ne_nil (normalized_value l) hne
      exact ⟨x, hx, hall x hx⟩
  · have hlt : 0 < seriesMax l - seriesMin l :=
      lt_of_le_of_ne (sub_nonneg.mpr hmM) (Ne.symm hc)
    refine ⟨?_, ?_, fun h0 => absurd h0 hc, hconc⟩
    · intro x hx
      rw [normalized_value_scaled l hc] at hx
      simp only [List.mem_map] at hx
      obtain ⟨v, hv, rfl⟩ := hx
      refine ⟨le_max_right _ _, ?_⟩
      apply max_le _ heps
      rw [div_le_one hlt]
      have := le_seriesMax l v hv
      linarith
    · refine ⟨max ((seriesMax l - seriesMin l) / (seriesMax l - seriesMin l)) epsilon, ?_, ?_⟩
      · rw [normalized_value_scaled l hc]
        exact List.mem_map.mpr ⟨seriesMax l, seriesMax_mem l h, rfl⟩
      · rw [div_self hc]
        exact max_eq_left heps

/-- Witness for C6 at the concrete sequence `[0, 5, 10]`. -/
theorem normalize_range_witness :
    ([0, 5, 10] : List ℚ) ≠ [] ∧ (∃ x ∈ normalized_value [0, 5, 10], x = 1) :=
  ⟨by decide, (normalize_range [0, 5, 10] (by decide)).2.1⟩

/-- Claim C7, counterexample: in `[0, 1, 100]` the element `1` is not the
minimum, yet its scaled value `0.01` lies below `epsilon` and the clip
raises it to `epsilon` — so the clip does not only alter the true
minimum. -/
theorem clip_raises_non_minimum :
    (1 : ℚ) ∈ ([0, 1, 100] : List ℚ) ∧
    (1 : ℚ) ≠ seriesMin [0, 1, 100] ∧
    ((1 : ℚ) - seriesMin [0, 1, 100]) / (seriesMax [0, 1, 100] - seriesMin [0, 1, 100]) < epsilon ∧
    normalized_value [0, 1, 100] = [epsilon, epsilon, 1] := by
  refine ⟨by simp, by norm_num [seriesMin], by norm_num [seriesMin, seriesMax, epsilon],
    by norm_num [normalized_value, seriesMin, seriesMax, epsilon]⟩

/-- Claim C7 as amended: with `max ≠ min` the output is the clipped
scaling entry for entry; the true minimum scales to exactly `0` (and is
hence raised to `epsilon`), every element scaling below `epsilon` is
raised to `epsilon`, and every element scaling to at least `epsilon` is
left unaltered by the clip. -/
theorem clip_after_scaling (l : List ℚ) (h : seriesMax l - seriesMin l ≠ 0) :
    normalized_value l =
      l.map (fun v => max ((v - seriesMin l) / (seriesMax l - seriesMin l)) epsilon) ∧
    ∀ v ∈ l,
      ((v = seriesMin l → (v - seriesMin l) / (seriesMax l - seriesMin l) = 0) ∧
       (epsilon ≤ (v - seriesMin l) / (seriesMax l - seriesMin l) →
         max ((v - seriesMin l) / (seriesMax l - seriesMin l)) epsilon =
           (v - seriesMin l) / (seriesMax l - seriesMin l)) ∧
       ((v - seriesMin l) / (seriesMax l - seriesMin l) < epsilon →
         max ((v - seriesMin l) / (seriesMax l - seriesMin l)) epsilon = epsilon)) := by
  refine ⟨normalized_value_scaled l h, ?_⟩
  intro v hv
  refine ⟨?_, fun hle => max_eq_left hle, fun hlt => max_eq_right hlt.le⟩
  intro hmin
  rw [hmin, sub_self, zero_div]

/-- Witness for the amended C7 at the concrete sequence `[0, 5, 10]`. -/
theorem clip_after_scaling_witness :
    seriesMax [0, 5, 10] - seriesMin [0, 5, 10] ≠ 0 ∧
    normalized_value [0, 5, 10] =
      ([0, 5, 10] : List ℚ).map
        (fun v => max ((v - seriesMin [0, 5, 10]) /
          (seriesMax [0, 5, 10] - seriesMin [0, 5, 10])) epsilon) :=
  ⟨by norm_num [seriesMin, seriesMax],
   (clip_after_scaling [0, 5, 10] (by norm_num [seriesMin, seriesMax])).1⟩

/-- Claim C8: the union coverage is at most the sum of the two domain
cardinalities, with equality exactly when the domains are disjoint, and a
country belongs to the union iff it appears in either field — so a country
in both fields is counted once. -/
theorem union_coverage (d : List JobRecord) :
    (all_countries d).card ≤ (empDomain d).card + (compDomain d).card ∧
    ((all_countries d).card = (empDomain d).card + (compDomain d).card ↔
      Disjoint (empDomain d) (compDomain d)) ∧
    ∀ c : String, c ∈ all_countries d ↔ c ∈ empDomain d ∨ c ∈ compDomain d := by
  refine ⟨Finset.card_union_le _ _, ⟨?_, ?_⟩, fun c => Finset.mem_union⟩
  · intro hcard
    rw [Finset.disjoint_iff_inter_eq_empty, ← Finset.card_eq_zero]
    have h2 := Finset.card_union_add_card_inter (empDomain d) (compDomain d)
    rw [show (empDomain d ∪ compDomain d) = all_countries d from rfl] at h2
    omega
  · intro hdisj
    rw [show all_countries d = empDomain d ∪ compDomain d from rfl,
      Finset.card_union_of_disjoint hdisj]

/-- Claim C9, counterexample: `Ruritania` lies in neither domain of the
example dataset, yet neither page's chain ignores a click on it — both
mutate the initial state (establishing it as primary). -/
theorem ambiguous_click_not_ignored :
    "Ruritania" ∉ empDomain dEx ∧ "Ruritania" ∉ compDomain dEx ∧
    homClick initState "Ruritania" ≠ initState ∧
    geoClick initState "Ruritania" ≠ initState := by
  decide

/-- Claim C9 as amended: a name outside both domains is absent from the
comparator map (whose data is exactly the union domain), so no map click
can deliver it; the chains themselves do not special-case such a name and,
from the initial state, would establish it as primary like any other
click. -/
theorem out_of_domain_click (d : List JobRecord) (name : String)
    (h1 : name ∉ empDomain d) (h2 : name ∉ compDomain d) :
    name ∉ all_countries d ∧
    homClick initState name = { initState with primary_country := some name } ∧
    geoClick initState name = { initState with primary_country := some name } := by
  refine ⟨?_, ?_, ?_⟩
  · simp [all_countries, Finset.mem_union, h1, h2]
  · simp [homClick, initState]
  · simp [geoClick, initState]

/-- Witness for the amended C9 at the concrete dataset and name. -/
theorem out_of_domain_click_witness :
    ("Ruritania" ∉ empDomain dEx ∧ "Ruritania" ∉ compDomain dEx) ∧
    homClick initState "Ruritania" =
      { initState with primary_country := some "Ruritania" } :=
  ⟨⟨by decide, by decide⟩,
   (out_of_domain_click dEx "Ruritania" (by decide) (by decide)).2.1⟩

/-- Claim C10: every key of the single-view groupby filters the dataset to
a non-empty subset, so `create_graphs` returns a mapping holding both
`'top_roles'` and `'top_countries'` and the page's unguarded accesses
cannot fail after a map selection. -/
theorem single_view_selection_safe (d : List JobRecord) (col : JobRecord → String)
    (k : String) (hk : k ∈ groupKeys d col) :
    filterBy d col k ≠ [] ∧
    "top_roles" ∈ create_graphs (filterBy d col k) ∧
    "top_countries" ∈ create_graphs (filterBy d col k) := by
  have hne : filterBy d col k ≠ [] := by
    rw [groupKeys, List.mem_dedup, List.mem_map] at hk
    obtain ⟨r, hr, hcol⟩ := hk
    intro hnil
    have hmem : r ∈ filterBy d col k := by
      rw [filterBy, List.mem_filter]
      exact ⟨hr, by simp [hcol]⟩
    rw [hnil] at hmem
    exact absurd hmem (List.not_mem_nil r)
  exact ⟨hne, by simp [create_graphs, hne], by simp [create_graphs, hne]⟩

/-- Witness for C10 at the concrete dataset, the employee-residence column
and its key `Atlantis`. -/
theorem single_view_selection_safe_witness :
    "Atlantis" ∈ groupKeys dEx (fun r => r.employee_residence) ∧
    filterBy dEx (fun r => r.employee_residence) "Atlantis" ≠ [] :=
  ⟨by decide,
   (single_view_selection_safe dEx (fun r => r.employee_residence) "Atlantis"
     (by decide)).1⟩

end AIDashboard
